import Mathlib

/-!
# Verification of the zabbix sender library

Shallow embedding of the Go sources of `golang-zabbix-sender`
(`sender.go`, the packet/response files and the `zabbix_sender`
variants), together with proofs about the embedded definitions.

Bytes are modelled as `Nat` (each in `[0,256)`), Go `int`/`int64` as
`Int`, `time.Duration` as `Int` (nanoseconds).  The network is modelled
as a trace: each call of `sendOnce` (one TCP exchange) consumes the next
pre-recorded outcome, and a ghost log records the address of every
attempt in order.
-/

set_option autoImplicit false

/-- `RedirectInfo` struct (response file, both package variants). -/
structure RedirectInfo where
  revision : Int
  address  : String
deriving Repr, DecidableEq

/-- `Response` struct (response file, both package variants). -/
structure Response where
  response : String
  info     : String
  redirect : Option RedirectInfo
deriving Repr, DecidableEq

/-- `ResponseInfo` struct; `spent` is `time.Duration` in nanoseconds. -/
structure ResponseInfo where
  processed : Int
  failed    : Int
  total     : Int
  spent     : Int
deriving Repr, DecidableEq

/-- `Metric` struct (`zabbix_sender` metrics file). -/
structure Metric where
  host   : String
  key    : String
  value  : String
  clock  : Int
  ns     : Int
  active : Bool
deriving Repr, DecidableEq

/-- `Packet` struct (packet file).  Go zero values: empty data slice,
zero clock/ns, empty strings. -/
structure Packet where
  request      : String
  data         : List Metric
  clock        : Int
  ns           : Int
  host         : String
  hostMetadata : String
deriving Repr, DecidableEq

/-- `Sender` struct (`sender.go` lines 13-21).  Timeouts are
`time.Duration` values in nanoseconds; they do not influence the
embedded control flow. -/
structure Sender where
  Hosts          : List String
  PrimaryHost    : String
  MaxRedirects   : Int
  UpdateHost     : Bool
  ConnectTimeout : Int
  ReadTimeout    : Int
  WriteTimeout   : Int
deriving Repr, DecidableEq

instance {ε α : Type} [DecidableEq ε] [DecidableEq α] : DecidableEq (Except ε α) := fun
  | .error a, .error b =>
    if h : a = b then .isTrue (by rw [h]) else .isFalse (by intro hc; cases hc; exact h rfl)
  | .error _, .ok _ => .isFalse (by intro hc; cases hc)
  | .ok _, .error _ => .isFalse (by intro hc; cases hc)
  | .ok a, .ok b =>
    if h : a = b then .isTrue (by rw [h]) else .isFalse (by intro hc; cases hc; exact h rfl)

/-- One pre-recorded outcome of a single TCP exchange: either the
transport-level error `sendOnce` would return, or the decoded
`Response`. -/
abbrev NetTrace := List (Except String Response)

/-- Network state: the remaining trace plus a ghost log of every
address on which a TCP attempt was made, in order. -/
structure SendState where
  net : NetTrace
  log : List String
deriving Repr, DecidableEq

/-- `parseHostPort` of the `zabbix` package (response file lines
31-36): the redirect address must merely contain a colon. -/
def parseHostPort (addr : String) : Except String String :=
  if ¬ (addr.data.contains ':') then
    .error ("invalid redirect address: " ++ addr)
  else
    .ok addr

/-- One call of `sendOnce` (`sender.go` lines 138-185) in the trace
model: consume the next recorded exchange outcome and log the attempted
address.  An exhausted trace behaves like a connection failure. -/
def sendOnce (st : SendState) (host : String) : Except String Response × SendState :=
  match st.net with
  | [] => (.error ("connecting to " ++ host ++ " failed"), { st with log := st.log ++ [host] })
  | o :: rest => (o, { net := rest, log := st.log ++ [host] })

/-- Body of the `for redirectCount := 0; redirectCount <= s.MaxRedirects`
loop of `sendWithRedirects` (`sender.go` lines 111-133); `fuel` is the
number of loop iterations still allowed. -/
def sendWithRedirectsLoop (st : SendState) (currentHost startHost : String) :
    Nat → Except String Response × SendState
  | 0 => (.error ("max redirects exceeded from " ++ startHost), st)
  | fuel + 1 =>
    match sendOnce st currentHost with
    | (.error e, st1) =>
      (.error ("sendOnce to " ++ currentHost ++ " failed: " ++ e), st1)
    | (.ok res, st1) =>
      if res.response = "success" then
        (.ok res, st1)
      else
        match res.redirect with
        | none =>
          (.error ("failed without redirect from " ++ currentHost ++ ": " ++ res.response), st1)
        | some rd =>
          if rd.address = "" then
            (.error ("failed without redirect from " ++ currentHost ++ ": " ++ res.response), st1)
          else
            match parseHostPort rd.address with
            | .error e => (.error e, st1)
            | .ok newHost => sendWithRedirectsLoop st1 newHost startHost fuel

/-- `sendWithRedirects` (`sender.go` lines 107-136).  The Go loop body
runs for `redirectCount = 0 .. s.MaxRedirects`, i.e. at most
`s.MaxRedirects + 1` exchanges (none when `MaxRedirects < 0`). -/
def sendWithRedirects (s : Sender) (packet : Packet) (st : SendState) (startHost : String) :
    Except String Response × SendState :=
  sendWithRedirectsLoop st startHost startHost (s.MaxRedirects + 1).toNat

/-- Result of `Send`: the returned response-or-error, the sender after
the call, the network state, plus two ghost observations — `writes`,
the number of assignments executed on the `PrimaryHost` field during the
call, and `driveStarts`, the `startHost` argument of each
`sendWithRedirects` call in order. -/
structure SendOut where
  res         : Except String Response
  s           : Sender
  st          : SendState
  writes      : Nat
  driveStarts : List String
deriving Repr, DecidableEq

/-- The `for _, host := range s.Hosts` fallback loop of `Send`
(`sender.go` lines 96-104): try each host in order, cache the first
working host in `PrimaryHost`, otherwise fail with the count of
configured hosts. -/
def sendFallback (s : Sender) (st : SendState) (packet : Packet) :
    List String → SendOut
  | [] =>
    { res := .error ("all " ++ toString s.Hosts.length ++ " hosts failed")
      s := s, st := st, writes := 0, driveStarts := [] }
  | host :: rest =>
    match sendWithRedirects s packet st host with
    | (.ok r, st1) =>
      { res := .ok r, s := { s with PrimaryHost := host }, st := st1
        writes := 1, driveStarts := [host] }
    | (.error _, st1) =>
      let out := sendFallback s st1 packet rest
      { out with driveStarts := host :: out.driveStarts }

/-- `Send` (`sender.go` lines 87-105): try the cached `PrimaryHost`
first when set (clearing it on failure), then fall back to the full
configured list. -/
def Send (s : Sender) (st : SendState) (packet : Packet) : SendOut :=
  if s.PrimaryHost = "" then
    sendFallback s st packet s.Hosts
  else
    match sendWithRedirects s packet st s.PrimaryHost with
    | (.ok r, st1) =>
      { res := .ok r, s := s, st := st1, writes := 0, driveStarts := [s.PrimaryHost] }
    | (.error _, st1) =>
      let s1 := { s with PrimaryHost := "" }
      let out := sendFallback s1 st1 packet s1.Hosts
      { out with writes := out.writes + 1, driveStarts := s.PrimaryHost :: out.driveStarts }

/-- `RegisterHost` (`sender.go` lines 189-216): returns the error (or
`()`), the sender and the network state after the call. -/
def RegisterHost (s : Sender) (st : SendState) (host hostmetadata : String) :
    Except String Unit × Sender × SendState :=
  let p : Packet :=
    { request := "active checks", data := [], clock := 0, ns := 0
      host := host, hostMetadata := hostmetadata }
  let o1 := Send s st p
  match o1.res with
  | .error e => (.error ("sending packet: " ++ e), o1.s, o1.st)
  | .ok res =>
    if res.response = "success" then
      (.ok (), o1.s, o1.st)
    else
      let p2 : Packet :=
        { request := "active checks", data := [], clock := 0, ns := 0
          host := host, hostMetadata := hostmetadata }
      let o2 := Send o1.s o1.st p2
      match o2.res with
      | .error e => (.error ("sending packet: " ++ e), o2.s, o2.st)
      | .ok res2 =>
        if res2.response = "failed" then
          (.error "autoregistration failed, verify hostmetadata", o2.s, o2.st)
        else
          (.ok (), o2.s, o2.st)

/-- `unicode.IsSpace` restricted to the code points Go's `TrimSpace`
fast path and `unicode.IsSpace` accept (space, tab, newline, vertical
tab, form feed, carriage return, NEL, NBSP). -/
def goIsSpace (c : Char) : Bool :=
  c.toNat = 32 || c.toNat = 9 || c.toNat = 10 || c.toNat = 11 ||
  c.toNat = 12 || c.toNat = 13 || c.toNat = 133 || c.toNat = 160

/-- `strings.TrimSpace`: drop leading and trailing white space. -/
def goTrimSpace (s : String) : String :=
  String.mk (((s.data.dropWhile goIsSpace).reverse.dropWhile goIsSpace).reverse)

/-- `strings.Split` with a one-character separator, on character
lists: splits at every occurrence of `sep`. -/
def goSplitCharAux (sep : Char) : List Char → List (List Char)
  | [] => [[]]
  | c :: rest =>
    if c = sep then
      [] :: goSplitCharAux sep rest
    else
      match goSplitCharAux sep rest with
      | [] => [[c]]
      | g :: gs => (c :: g) :: gs

/-- `strings.Split(s, sep)` for the one-character separators (`";"`,
`":"`) the source uses. -/
def goSplit (s : String) (sep : Char) : List String :=
  (goSplitCharAux sep s.data).map String.mk

/-- `strconv.Atoi` = `strconv.ParseInt(s, 10, 0)` on a 64-bit platform.
Returns the Go result pair: the parsed value (0 on a syntax error, the
clamped bound on a range error) and the error, if any. -/
def goAtoi (s : String) : Int × Option String :=
  let signDigits : Bool × List Char :=
    match s.data with
    | '-' :: rest => (true, rest)
    | '+' :: rest => (false, rest)
    | l => (false, l)
  let neg := signDigits.1
  let digits := signDigits.2
  if digits.isEmpty || ¬ (digits.all Char.isDigit) then
    (0, some ("parsing " ++ s ++ ": invalid syntax"))
  else
    let n : Nat := digits.foldl (fun acc c => acc * 10 + (c.toNat - 48)) 0
    if neg then
      if 9223372036854775808 < n then
        (-9223372036854775808, some ("parsing " ++ s ++ ": value out of range"))
      else
        (-(n : Int), none)
    else
      if 9223372036854775807 < n then
        (9223372036854775807, some ("parsing " ++ s ++ ": value out of range"))
      else
        ((n : Int), none)

/-- Loop body of `GetInfo` over the semicolon segments (response file).
The error of `strconv.Atoi` is assigned to `err` in the Go code but
never inspected, so the embedding drops `(goAtoi value).2` exactly as
the source does; only the `seconds spent` branch checks its error.
`spentParse` abstracts `strconv.ParseFloat(value, 64)` followed by
`time.Duration(int64(f * 1000000000.0))` (floating point is not
embedded; no claim depends on its value). -/
def getInfoLoop (spentParse : String → Except String Int) (ret : ResponseInfo) :
    List String → Except String ResponseInfo
  | [] => .ok ret
  | seg :: restSegs =>
    match goSplit seg ':' with
    | [k0, v0] =>
      let key := goTrimSpace k0
      let value := goTrimSpace v0
      if key = "processed" then
        getInfoLoop spentParse { ret with processed := (goAtoi value).1 } restSegs
      else if key = "failed" then
        getInfoLoop spentParse { ret with failed := (goAtoi value).1 } restSegs
      else if key = "total" then
        getInfoLoop spentParse { ret with total := (goAtoi value).1 } restSegs
      else if key = "seconds spent" then
        match spentParse value with
        | .error e =>
          .error ("Error in parsing seconds spent value [" ++ value ++ "] error: " ++ e)
        | .ok d => getInfoLoop spentParse { ret with spent := d } restSegs
      else
        getInfoLoop spentParse ret restSegs
    | sp2 =>
      .error ("Error in splited data, expected 2 got " ++ toString sp2.length ++
        " for data (" ++ seg ++ ")")

/-- `GetInfo` (response file; identical logic in both package
variants): parse the `info` field of a success response into
statistics. -/
def GetInfo (spentParse : String → Except String Int) (r : Response) :
    Except String ResponseInfo :=
  if r.response ≠ "success" then
    .error ("Can not process info if response not Success (" ++ r.response ++ ")")
  else
    let sp := goSplit r.info ';'
    if sp.length ≠ 4 then
      .error ("Error in splited data, expected 4 got " ++ toString sp.length ++
        " for data (" ++ r.info ++ ")")
    else
      getInfoLoop spentParse { processed := 0, failed := 0, total := 0, spent := 0 } sp

namespace ZabbixSender

/-- `normalizeHost` of the `zabbix_sender` package (response file lines
119-128): trim space; keep an empty address; append the default port
`10051` when no colon is present. -/
def normalizeHost (addr : String) : String :=
  let addr1 := goTrimSpace addr
  if addr1 = "" then addr1
  else if addr1.data.contains ':' then addr1
  else addr1 ++ ":10051"

/-- `net.SplitHostPort` for plain and `[host]:port` bracketed
addresses: split at the single colon separating host and port; reject a
missing port, stray brackets and extra colons.  (Go splits at the last
colon and then rejects a colon inside the host part, which accepts the
same addresses.) -/
def splitHostPort (addr : String) : Except String (String × String) :=
  if addr.data.head? = some '[' then
    match (addr.data.drop 1).span (fun c => c ≠ ']') with
    | (hostCs, ']' :: ':' :: portCs) =>
      if portCs.contains ':' || portCs.contains '[' || portCs.contains ']' then
        .error ("address " ++ addr ++ ": too many colons in address")
      else
        .ok (String.mk hostCs, String.mk portCs)
    | _ => .error ("address " ++ addr ++ ": missing port in address")
  else
    match addr.data.span (fun c => c ≠ ':') with
    | (hostCs, ':' :: portCs) =>
      if portCs.contains ':' then
        .error ("address " ++ addr ++ ": too many colons in address")
      else if hostCs.contains '[' || hostCs.contains ']' ||
          portCs.contains '[' || portCs.contains ']' then
        .error ("address " ++ addr ++ ": unexpected bracket in address")
      else
        .ok (String.mk hostCs, String.mk portCs)
    | _ => .error ("address " ++ addr ++ ": missing port in address")

/-- `parseHostPort` of the `zabbix_sender` package (response file lines
109-116): normalize, then require a non-empty host and a non-empty port
via `net.SplitHostPort`.  The port is not required to be numeric. -/
def parseHostPort (addr : String) : Except String String :=
  let addr1 := normalizeHost addr
  match splitHostPort addr1 with
  | .error _ => .error ("invalid redirect address: " ++ addr1)
  | .ok (host, port) =>
    if host = "" || port = "" then
      .error ("invalid redirect address: " ++ addr1)
    else
      .ok addr1

end ZabbixSender

/-- Decimal digit predicate on a non-empty string: the formalisation of
"numeric port" used by the address-validation claim. -/
def isNumericStr (s : String) : Bool :=
  ¬ s.isEmpty && s.data.all Char.isDigit

/-! ## Framing codec (byte level)

Bytes are `Nat` values below 256. -/

/-- Lowercase hexadecimal digit, as in Go `encoding/json`. -/
def hexDigit (n : Nat) : Nat :=
  if n < 10 then 48 + n else 87 + n

/-- `\u00xx`-style escape used by Go `encoding/json` (lowercase hex). -/
def uEscape (n : Nat) : List Nat :=
  [92, 117, hexDigit (n / 4096 % 16), hexDigit (n / 256 % 16),
   hexDigit (n / 16 % 16), hexDigit (n % 16)]

/-- UTF-8 encoding of one character. -/
def utf8Bytes (c : Char) : List Nat :=
  let n := c.toNat
  if n < 128 then [n]
  else if n < 2048 then [192 + n / 64, 128 + n % 64]
  else if n < 65536 then [224 + n / 4096, 128 + n / 64 % 64, 128 + n % 64]
  else [240 + n / 262144, 128 + n / 4096 % 64, 128 + n / 64 % 64, 128 + n % 64]

/-- Per-character escaping of Go `encoding/json` string encoding with
its default HTML escaping (`"` `\` backslash-escaped, `\n` `\r` `\t`
named, other controls and `<` `>` `&` and U+2028/U+2029 as `\uXXXX`). -/
def jsonEscapeChar (c : Char) : List Nat :=
  if c = '"' then [92, 34]
  else if c = '\\' then [92, 92]
  else if c = '<' || c = '>' || c = '&' then uEscape c.toNat
  else if c.toNat < 32 then
    if c = '\n' then [92, 110]
    else if c = '\r' then [92, 114]
    else if c = '\t' then [92, 116]
    else uEscape c.toNat
  else if c.toNat = 8232 || c.toNat = 8233 then uEscape c.toNat
  else utf8Bytes c

/-- Escape a character list, concatenating the per-character bytes. -/
def escList : List Char → List Nat
  | [] => []
  | c :: cs => jsonEscapeChar c ++ escList cs

/-- Go `encoding/json` encoding of a string value (quotes included). -/
def jsonStr (s : String) : List Nat :=
  34 :: escList s.data ++ [34]

/-- ASCII bytes of a literal piece of JSON (used for keys and braces). -/
def strBytes (s : String) : List Nat :=
  s.data.map Char.toNat

/-- Decimal encoding of a Go integer value. -/
def intBytes (n : Int) : List Nat :=
  strBytes (toString n)

/-- `json.Marshal` of a `Metric` (metrics file): fields `host`, `key`,
`value` always present, `clock`/`ns` with `omitempty`, `Active` tagged
`json:"-"` and never emitted. -/
def metricJSON (m : Metric) : List Nat :=
  [123] ++ strBytes "\"host\":" ++ jsonStr m.host ++
  strBytes ",\"key\":" ++ jsonStr m.key ++
  strBytes ",\"value\":" ++ jsonStr m.value ++
  (if m.clock = 0 then [] else strBytes ",\"clock\":" ++ intBytes m.clock) ++
  (if m.ns = 0 then [] else strBytes ",\"ns\":" ++ intBytes m.ns) ++
  [125]

/-- Comma-separated JSON array elements. -/
def jsonArrayElems : List (List Nat) → List Nat
  | [] => []
  | [x] => x
  | x :: xs => x ++ [44] ++ jsonArrayElems xs

/-- `json.Marshal` of a `Packet` (packet file): `request` always
present, every other field tagged `omitempty`. -/
def packetJSON (p : Packet) : List Nat :=
  [123] ++ strBytes "\"request\":" ++ jsonStr p.request ++
  (if p.data.isEmpty then []
   else strBytes ",\"data\":[" ++ jsonArrayElems (p.data.map metricJSON) ++ [93]) ++
  (if p.clock = 0 then [] else strBytes ",\"clock\":" ++ intBytes p.clock) ++
  (if p.ns = 0 then [] else strBytes ",\"ns\":" ++ intBytes p.ns) ++
  (if p.host = "" then [] else strBytes ",\"host\":" ++ jsonStr p.host) ++
  (if p.hostMetadata = "" then []
   else strBytes ",\"host_metadata\":" ++ jsonStr p.hostMetadata) ++
  [125]

/-- `binary.LittleEndian.PutUint32` into a zeroed 8-byte buffer: the
low 4 bytes hold `v` truncated to 32 bits, the high 4 bytes stay 0. -/
def putUint32Pad8 (v : Nat) : List Nat :=
  [v % 256, v / 256 % 256, v / 65536 % 256, v / 16777216 % 256, 0, 0, 0, 0]

/-- `Packet.DataLen` (packet file lines 37-42): 8 bytes built by
writing `uint32(len(JSONData))` little-endian into a zeroed 8-byte
slice. -/
def DataLen (p : Packet) : List Nat :=
  putUint32Pad8 ((packetJSON p).length % 4294967296)

/-- True 8-byte little-endian encoding of a natural number, the layout
the wire protocol documents for the length field. -/
def le64 (n : Nat) : List Nat :=
  [n % 256, n / 256 % 256, n / 65536 % 256, n / 16777216 % 256,
   n / 4294967296 % 256, n / 1099511627776 % 256,
   n / 281474976710656 % 256, n / 72057594037927936 % 256]

/-- `Sender.getHeader` (`sender.go` lines 42-44): the bytes of
`"ZBXD\x01"`. -/
def getHeader : List Nat :=
  [90, 66, 88, 68, 1]

/-- The request buffer assembled by `sendOnce` (`sender.go` lines
146-150): header, length field, JSON body. -/
def sendOnceBuffer (p : Packet) : List Nat :=
  getHeader ++ DataLen p ++ packetJSON p

/-- `fmt` `%+v` rendering of a byte slice, as interpolated into the
invalid-header error message. -/
def fmtBytes (l : List Nat) : String :=
  "[" ++ String.intercalate " " (l.map toString) ++ "]"

/-- Receive-side validation of `sendOnce` (`sender.go` lines 169-184):
reject fewer than 13 bytes, then a header mismatch, then delegate the
remaining bytes to `decode`, which abstracts `json.Unmarshal` into a
`Response`.  Total by construction: it returns on every input. -/
def sendOnceParse (decode : List Nat → Except String Response) (host : String)
    (response : List Nat) : Except String Response :=
  if response.length < 13 then
    .error ("response too short from " ++ host ++ ": " ++
      toString response.length ++ " bytes")
  else
    let header := response.take 5
    let data := response.drop 13
    if header ≠ getHeader then
      .error ("got no valid header [" ++ fmtBytes header ++ "] , expected [" ++
        fmtBytes getHeader ++ "]")
    else
      match decode data with
      | .error e => .error ("zabbix response from " ++ host ++ " is not valid: " ++ e)
      | .ok r => .ok r

/-! ## Shared concrete test fixtures -/

/-- A plain rejection: status `"failed"`, no redirect descriptor. -/
def failResp : Response :=
  { response := "failed", info := "", redirect := none }

/-- A success response. -/
def succResp : Response :=
  { response := "success", info := "", redirect := none }

/-- A rejection carrying a redirect to `a`. -/
def redirResp (a : String) : Response :=
  { response := "failed", info := "", redirect := some { revision := 0, address := a } }

/-- A single-host sender with the default `MaxRedirects = 3`. -/
def oneHostSender : Sender :=
  { Hosts := ["a:1"], PrimaryHost := "", MaxRedirects := 3, UpdateHost := false,
    ConnectTimeout := 5000000000, ReadTimeout := 15000000000, WriteTimeout := 5000000000 }

/-- An empty packet of trapper data. -/
def emptyPacket : Packet :=
  { request := "sender data", data := [], clock := 0, ns := 0, host := "", hostMetadata := "" }

/-- The network trace of a first registration round that is rejected
and a second round that would confirm it. -/
def regTrace : SendState :=
  { net := [.ok failResp, .ok succResp], log := [] }

/-- The network trace of a chain of redirect responses, one per
address in `addrs`. -/
def mkRedirTrace (addrs : List String) : NetTrace :=
  addrs.map (fun a => .ok (redirResp a))

/-- Whether an `Except` result is a success (`err == nil` in Go). -/
def isOkE {A : Type} : Except String A → Bool
  | .ok _ => true
  | .error _ => false

/-- A three-host HA sender whose cached primary is the middle host. -/
def haSender : Sender :=
  { oneHostSender with Hosts := ["a:1", "b:1", "c:1"], PrimaryHost := "b:1" }

/-- Trace for a send in which the cached drive and the first two list
hosts are rejected and the third list host accepts. -/
def haTrace : SendState :=
  { net := [.ok failResp, .ok failResp, .ok failResp, .ok succResp], log := [] }

/-- A sender whose cached primary is its (only) configured host. -/
def cachedSender : Sender :=
  { oneHostSender with PrimaryHost := "a:1" }

/-- Trace with a single accepting exchange. -/
def cacheHitTrace : SendState :=
  { net := [.ok succResp], log := [] }

/-- A sender with a cached primary that is not in the configured list. -/
def missSender : Sender :=
  { oneHostSender with PrimaryHost := "p:1" }

/-- Empty trace: every TCP attempt fails at the transport level. -/
def emptyTrace : SendState :=
  { net := [], log := [] }

/-- Trace for a drive that is redirected once and then accepted. -/
def redirOkTrace : SendState :=
  { net := [.ok (redirResp "b:1"), .ok succResp], log := [] }

/-- Trace for a drive redirected to an address with a non-numeric port
and then rejected there. -/
def badPortTrace : SendState :=
  { net := [.ok (redirResp "h:abc"), .ok failResp], log := [] }

/-- A string of 2^32 ASCII characters. -/
def bigStr : String :=
  String.mk (List.replicate 4294967296 'a')

/-- A packet whose JSON encoding is longer than 2^32 bytes. -/
def bigPacket : Packet :=
  { request := bigStr, data := [], clock := 0, ns := 0, host := "", hostMetadata := "" }

/-! ## Claim theorems -/

/-- C1: `RegisterHost` is claimed to issue a second identical request
when the first attempt's response status is `"failed"`, and to succeed
when that second attempt returns `"success"`.  The code instead turns
every non-`"success"` response into a `Send` error (`sendWithRedirects`
only ever returns a nil error together with a `"success"` response), so
the documented retry is unreachable: with a first response `"failed"`
and a second response `"success"` queued, `RegisterHost` fails after a
single attempt (`log = ["a:1"]`) and never consumes the confirming
second response. -/
theorem zbx_C1_registerHost_retry_dead :
    (RegisterHost oneHostSender regTrace "host1" "meta1").1
        = .error "sending packet: all 1 hosts failed"
      ∧ (RegisterHost oneHostSender regTrace "host1" "meta1").2.2.log = ["a:1"]
      ∧ (RegisterHost oneHostSender regTrace "host1" "meta1").2.2.net = [.ok succResp] := by
  refine ⟨rfl, rfl, rfl⟩

theorem contains_colon_ne_empty {a : String} (h : a.data.contains ':' = true) :
    ¬ a = "" := by
  intro heq
  subst heq
  simp [List.contains] at h

theorem parseHostPort_of_contains {a : String} (h : a.data.contains ':' = true) :
    parseHostPort a = .ok a := by
  unfold parseHostPort
  rw [h]
  simp

/-- Driving the redirect loop through a chain of valid redirects ending
in a success response: as long as the fuel exceeds the chain length,
the loop consumes the whole chain plus the success response, attempts
every redirect address, and returns the success. -/
theorem redirLoop_success (succ : Response) (hsucc : succ.response = "success")
    (rest : NetTrace) :
    ∀ (addrs : List String) (fuel : Nat) (log : List String) (cur start : String),
      addrs.length < fuel →
      (∀ a ∈ addrs, a.data.contains ':' = true) →
      sendWithRedirectsLoop
          { net := mkRedirTrace addrs ++ .ok succ :: rest, log := log } cur start fuel
        = (.ok succ, { net := rest, log := log ++ cur :: addrs }) := by
  intro addrs
  induction addrs with
  | nil =>
    intro fuel log cur start hfuel _
    match fuel, hfuel with
    | fuel + 1, _ =>
      simp [sendWithRedirectsLoop, sendOnce, mkRedirTrace, hsucc]
  | cons a as ih =>
    intro fuel log cur start hfuel hvalid
    have ha : a.data.contains ':' = true := hvalid a (by simp)
    have has : ∀ x ∈ as, x.data.contains ':' = true := fun x hx => hvalid x (by simp [hx])
    match fuel, hfuel with
    | fuel + 1, hfuel =>
      have hlen : as.length < fuel := by simpa using Nat.lt_of_succ_lt_succ hfuel
      have hstep := ih fuel (log ++ [cur]) a start hlen has
      simp only [sendWithRedirectsLoop, sendOnce, mkRedirTrace, List.map_cons,
        List.cons_append, redirResp]
      rw [if_neg (by decide : ¬ ("failed" = "success"))]
      rw [if_neg (contains_colon_ne_empty ha)]
      rw [parseHostPort_of_contains ha]
      dsimp only
      simp only [mkRedirTrace, redirResp] at hstep
      rw [hstep]
      simp

/-- Driving the redirect loop through a chain of valid redirects as
long as the fuel: the fuel runs out and the loop reports that the
redirect limit was exceeded. -/
theorem redirLoop_exhaust :
    ∀ (addrs : List String) (fuel : Nat) (rest : NetTrace) (log : List String)
      (cur start : String),
      addrs.length = fuel →
      (∀ a ∈ addrs, a.data.contains ':' = true) →
      (sendWithRedirectsLoop
          { net := mkRedirTrace addrs ++ rest, log := log } cur start fuel).1
        = .error ("max redirects exceeded from " ++ start) := by
  intro addrs
  induction addrs with
  | nil =>
    intro fuel rest log cur start hfuel _
    subst hfuel
    rfl
  | cons a as ih =>
    intro fuel rest log cur start hfuel hvalid
    have ha : a.data.contains ':' = true := hvalid a (by simp)
    have has : ∀ x ∈ as, x.data.contains ':' = true := fun x hx => hvalid x (by simp [hx])
    match fuel, hfuel with
    | fuel + 1, hfuel =>
      have hlen : as.length = fuel := by simpa using hfuel
      have hstep := ih fuel rest (log ++ [cur]) a start hlen has
      simp only [sendWithRedirectsLoop, sendOnce, mkRedirTrace, List.map_cons,
        List.cons_append, redirResp]
      rw [if_neg (by decide : ¬ ("failed" = "success"))]
      rw [if_neg (contains_colon_ne_empty ha)]
      rw [parseHostPort_of_contains ha]
      dsimp only
      simpa only [mkRedirTrace, redirResp] using hstep

/-- C2: for a redirect-following drive from one starting address with
`MaxRedirects = n`: a chain of exactly `n` valid redirect responses
followed by a success response returns that success, and a chain of
exactly `n + 1` otherwise-valid redirect responses fails with the
redirect-limit error. -/
theorem zbx_C2_redirect_limit (s : Sender) (p : Packet) (n : Nat) (start : String)
    (succ : Response) (rest : NetTrace) (log : List String)
    (hmax : s.MaxRedirects = (n : Int)) (hsucc : succ.response = "success") :
    (∀ addrs : List String, addrs.length = n →
        (∀ a ∈ addrs, a.data.contains ':' = true) →
      (sendWithRedirects s p
          { net := mkRedirTrace addrs ++ .ok succ :: rest, log := log } start).1
        = .ok succ)
    ∧ (∀ addrs : List String, addrs.length = n + 1 →
        (∀ a ∈ addrs, a.data.contains ':' = true) →
      (sendWithRedirects s p { net := mkRedirTrace addrs ++ rest, log := log } start).1
        = .error ("max redirects exceeded from " ++ start)) := by
  have hf : (s.MaxRedirects + 1).toNat = n + 1 := by
    rw [hmax]; omega
  constructor
  · intro addrs hlen hvalid
    have h := redirLoop_success succ hsucc rest addrs (n + 1) log start start
      (by omega) hvalid
    simp [sendWithRedirects, hf, h]
  · intro addrs hlen hvalid
    have h := redirLoop_exhaust addrs (n + 1) rest log start start (by omega) hvalid
    simp only [sendWithRedirects, hf]
    exact h

/-- Witness for C2 with `MaxRedirects = 1`: one redirect then success
succeeds; two otherwise-valid redirects exceed the limit. -/
theorem zbx_C2_witness :
    (sendWithRedirects { oneHostSender with MaxRedirects := 1 } emptyPacket
        { net := mkRedirTrace ["b:1"] ++ .ok succResp :: [], log := [] } "a:1").1
      = .ok succResp
    ∧ (sendWithRedirects { oneHostSender with MaxRedirects := 1 } emptyPacket
        { net := mkRedirTrace ["b:1", "c:1"] ++ [], log := [] } "a:1").1
      = .error ("max redirects exceeded from " ++ "a:1") := by
  have h := zbx_C2_redirect_limit { oneHostSender with MaxRedirects := 1 } emptyPacket 1
    "a:1" succResp [] [] rfl rfl
  exact ⟨h.1 ["b:1"] rfl (by decide), h.2 ["b:1", "c:1"] rfl (by decide)⟩

/-- C4: for an info string with the required 4×2 shape in which the
`processed` field is not a valid integer, `GetInfo` is claimed to fail
with a parse error.  The code assigns the `strconv.Atoi` error to `err`
but never checks it, so it returns statistics (with the Go zero value
`0` for the unparseable field) and a nil error, for every behaviour of
the abstracted float parser. -/
theorem zbx_C4_getInfo_ignores_atoi_error (spentParse : String → Except String Int) :
    GetInfo spentParse
        { response := "success", info := "processed: abc; failed: 0; total: 1; x: 2",
          redirect := none }
      = .ok { processed := 0, failed := 0, total := 1, spent := 0 } := by
  rfl

/-- C10: the receive-side validation of the single-attempt transport
returns a protocol error (never a success, a panic or a hang — the
embedded function is total) on every response shorter than 13 bytes,
and on every response of at least 13 bytes whose first 5 bytes differ
from the constant header, for every behaviour of the JSON decoder. -/
theorem zbx_C10_short_or_bad_header_rejected
    (decode : List Nat → Except String Response) (host : String) (resp : List Nat) :
    (resp.length < 13 →
      sendOnceParse decode host resp
        = .error ("response too short from " ++ host ++ ": " ++
            toString resp.length ++ " bytes"))
    ∧ (13 ≤ resp.length → resp.take 5 ≠ getHeader →
      sendOnceParse decode host resp
        = .error ("got no valid header [" ++ fmtBytes (resp.take 5) ++
            "] , expected [" ++ fmtBytes getHeader ++ "]")) := by
  constructor
  · intro h
    simp only [sendOnceParse, if_pos h]
  · intro h1 h2
    have hnot : ¬ resp.length < 13 := Nat.not_lt.mpr h1
    simp only [sendOnceParse, if_neg hnot, ne_eq, if_pos h2, ite_not, if_neg h2]

/-- Witness for C10 at two concrete inputs: a 3-byte response and a
13-byte all-zero response. -/
theorem zbx_C10_witness :
    sendOnceParse (fun _ => .ok succResp) "h:1" [0, 1, 2]
        = .error ("response too short from h:1: " ++
            toString ([0, 1, 2] : List Nat).length ++ " bytes")
      ∧ sendOnceParse (fun _ => .ok succResp) "h:1"
            [7, 7, 7, 7, 7, 7, 7, 7, 7, 7, 7, 7, 7]
          = .error ("got no valid header [" ++
              fmtBytes (([7, 7, 7, 7, 7, 7, 7, 7, 7, 7, 7, 7, 7] : List Nat).take 5) ++
              "] , expected [" ++ fmtBytes getHeader ++ "]") :=
  ⟨(zbx_C10_short_or_bad_header_rejected _ "h:1" _).1 (by decide),
   (zbx_C10_short_or_bad_header_rejected _ "h:1" _).2 (by decide) (by decide)⟩

theorem parseHostPort_ok_contains {a b : String} (h : parseHostPort a = .ok b) :
    b.data.contains ':' = true := by
  by_cases hc : a.data.contains ':' = true
  · rw [parseHostPort_of_contains hc] at h
    cases h
    exact hc
  · unfold parseHostPort at h
    rw [if_pos (by simpa using hc)] at h
    cases h

/-- The fallback loop attempts a prefix of its host list, in order. -/
theorem sendFallback_take :
    ∀ (l : List String) (s : Sender) (st : SendState) (p : Packet),
      ∃ k, (sendFallback s st p l).driveStarts = l.take k := by
  intro l
  induction l with
  | nil => intro s st p; exact ⟨0, rfl⟩
  | cons host rest ih =>
    intro s st p
    rcases hw : sendWithRedirects s p st host with ⟨r, st1⟩
    cases r with
    | ok v =>
      exact ⟨1, by simp [sendFallback, hw]⟩
    | error e =>
      obtain ⟨k, hk⟩ := ih s st1 p
      exact ⟨k + 1, by simp [sendFallback, hw, hk]⟩

/-- When the fallback loop succeeds, the last drive it started is the
host it caches in `PrimaryHost`. -/
theorem sendFallback_ok :
    ∀ (l : List String) (s : Sender) (st : SendState) (p : Packet) (r : Response),
      (sendFallback s st p l).res = .ok r →
      ∃ pre, (sendFallback s st p l).driveStarts
        = pre ++ [(sendFallback s st p l).s.PrimaryHost] := by
  intro l
  induction l with
  | nil =>
    intro s st p r h
    simp [sendFallback] at h
  | cons host rest ih =>
    intro s st p r h
    rcases hw : sendWithRedirects s p st host with ⟨r1, st1⟩
    cases r1 with
    | ok v =>
      refine ⟨[], ?_⟩
      simp [sendFallback, hw]
    | error e =>
      rw [sendFallback, hw] at h ⊢
      obtain ⟨pre, hpre⟩ := ih s st1 p r (by simpa using h)
      exact ⟨host :: pre, by simp [hpre]⟩

/-- The fallback loop performs exactly one `PrimaryHost` assignment on
success and none on failure. -/
theorem sendFallback_writes :
    ∀ (l : List String) (s : Sender) (st : SendState) (p : Packet),
      (sendFallback s st p l).writes
        = if isOkE (sendFallback s st p l).res then 1 else 0 := by
  intro l
  induction l with
  | nil => intro s st p; rfl
  | cons host rest ih =>
    intro s st p
    rcases hw : sendWithRedirects s p st host with ⟨r1, st1⟩
    cases r1 with
    | ok v => simp [sendFallback, hw, isOkE]
    | error e => simpa [sendFallback, hw] using ih s st1 p

/-- When the fallback loop fails, the error reports the length of the
configured list, the sender is unchanged and no assignment happened. -/
theorem sendFallback_error :
    ∀ (l : List String) (s : Sender) (st : SendState) (p : Packet) (e : String),
      (sendFallback s st p l).res = .error e →
      e = "all " ++ toString s.Hosts.length ++ " hosts failed"
        ∧ (sendFallback s st p l).s = s
        ∧ (sendFallback s st p l).writes = 0 := by
  intro l
  induction l with
  | nil =>
    intro s st p e h
    refine ⟨?_, rfl, rfl⟩
    simpa [sendFallback] using h.symm
  | cons host rest ih =>
    intro s st p e h
    rcases hw : sendWithRedirects s p st host with ⟨r1, st1⟩
    cases r1 with
    | ok v =>
      rw [sendFallback, hw] at h
      cases h
    | error e1 =>
      rw [sendFallback, hw] at h ⊢
      exact ih s st1 p e (by simpa using h)

/-- C3: in every send, (a) if the send succeeds, the cached primary
afterwards is the literal starting address of the last (successful)
drive — never an address reached only via a mid-drive redirect, since
`driveStarts` records only `sendWithRedirects` starting addresses; (b)
when a cached primary is set it is attempted first; (c) the attempted
starting addresses are the optional cached primary followed by a prefix
of the configured list in its original order, never skipping a
position. -/
theorem zbx_C3_cache_first_then_list_order (s : Sender) (st : SendState) (p : Packet) :
    (∀ r, (Send s st p).res = .ok r →
      ∃ pre, (Send s st p).driveStarts = pre ++ [(Send s st p).s.PrimaryHost])
    ∧ (s.PrimaryHost ≠ "" → (Send s st p).driveStarts.head? = some s.PrimaryHost)
    ∧ (∃ k, (Send s st p).driveStarts
        = (if s.PrimaryHost = "" then [] else [s.PrimaryHost]) ++ s.Hosts.take k) := by
  by_cases hprim : s.PrimaryHost = ""
  · rw [Send, if_pos hprim]
    refine ⟨fun r h => sendFallback_ok s.Hosts s st p r h, fun h => absurd hprim h, ?_⟩
    obtain ⟨k, hk⟩ := sendFallback_take s.Hosts s st p
    exact ⟨k, by simp [hprim, hk]⟩
  · rw [Send, if_neg hprim]
    rcases hw : sendWithRedirects s p st s.PrimaryHost with ⟨r1, st1⟩
    cases r1 with
    | ok v =>
      refine ⟨fun r h => ⟨[], rfl⟩, fun _ => rfl, ⟨0, by simp [hprim]⟩⟩
    | error e =>
      refine ⟨?_, fun _ => rfl, ?_⟩
      · intro r h
        obtain ⟨pre, hpre⟩ :=
          sendFallback_ok s.Hosts { s with PrimaryHost := "" } st1 p r (by simpa using h)
        exact ⟨s.PrimaryHost :: pre, by simp [hpre]⟩
      · obtain ⟨k, hk⟩ := sendFallback_take s.Hosts { s with PrimaryHost := "" } st1 p
        exact ⟨k, by simp [hprim, hk]⟩

/-- Witness for C3: cached primary `"b:1"` fails, the list is walked
from its start (`"a:1"`, then `"b:1"` again, then `"c:1"`), the third
list host accepts and becomes the cached primary. -/
theorem zbx_C3_witness :
    (∃ pre, (Send haSender haTrace emptyPacket).driveStarts
        = pre ++ [(Send haSender haTrace emptyPacket).s.PrimaryHost])
    ∧ (Send haSender haTrace emptyPacket).driveStarts.head? = some haSender.PrimaryHost
    ∧ (∃ k, (Send haSender haTrace emptyPacket).driveStarts
        = (if haSender.PrimaryHost = "" then [] else [haSender.PrimaryHost])
          ++ haSender.Hosts.take k) := by
  obtain ⟨h1, h2, h3⟩ := zbx_C3_cache_first_then_list_order haSender haTrace emptyPacket
  exact ⟨h1 succResp rfl, h2 (by decide), h3⟩

/-- Counterexample for C5: a send that succeeds directly through the
cached primary performs zero assignments of the `PrimaryHost` field
(the claim asserts every send performs exactly one). -/
theorem zbx_C5_cex_cache_hit_writes_nothing :
    isOkE (Send cachedSender cacheHitTrace emptyPacket).res = true
      ∧ (Send cachedSender cacheHitTrace emptyPacket).writes = 0 :=
  ⟨rfl, rfl⟩

/-- C5 (amended): per send, the `PrimaryHost` field is assigned zero
times when the send succeeds through the cached primary, and otherwise
once for clearing a failed cache (when one was set) plus once for
caching a new host (when the list walk succeeds) — so zero, one or two
times, not always exactly once. -/
theorem zbx_C5_amended_write_count (s : Sender) (st : SendState) (p : Packet) :
    (Send s st p).writes
      = (if s.PrimaryHost = "" then
           (if isOkE (Send s st p).res then 1 else 0)
         else if isOkE (sendWithRedirects s p st s.PrimaryHost).1 then 0
         else 1 + (if isOkE (Send s st p).res then 1 else 0)) := by
  by_cases hprim : s.PrimaryHost = ""
  · rw [Send, if_pos hprim, if_pos hprim]
    exact sendFallback_writes s.Hosts s st p
  · rw [Send, if_neg hprim, if_neg hprim]
    rcases hw : sendWithRedirects s p st s.PrimaryHost with ⟨r1, st1⟩
    cases r1 with
    | ok v => simp [isOkE]
    | error e =>
      dsimp only
      rw [if_neg (by simp [isOkE])]
      rw [sendFallback_writes s.Hosts { s with PrimaryHost := "" } st1 p]
      omega

/-- Counterexample for C6: with a cached primary outside the one-host
configured list and every attempt failing, two drives are attempted
(`driveStarts.length = 2`) but the error reports the configured-list
count `1`. -/
theorem zbx_C6_cex_cache_attempt_not_counted :
    (Send missSender emptyTrace emptyPacket).res = .error "all 1 hosts failed"
      ∧ (Send missSender emptyTrace emptyPacket).driveStarts.length = 2 :=
  ⟨rfl, rfl⟩

/-- C6 (amended): when every address fails, the error message reports
the length of the configured host list — the cached-primary attempt,
when one was made, is not counted. -/
theorem zbx_C6_amended_reports_list_length (s : Sender) (st : SendState) (p : Packet)
    (e : String) (h : (Send s st p).res = .error e) :
    e = "all " ++ toString s.Hosts.length ++ " hosts failed" := by
  by_cases hprim : s.PrimaryHost = ""
  · rw [Send, if_pos hprim] at h
    exact (sendFallback_error s.Hosts s st p e h).1
  · rw [Send, if_neg hprim] at h
    rcases hw : sendWithRedirects s p st s.PrimaryHost with ⟨r1, st1⟩
    rw [hw] at h
    cases r1 with
    | ok v => cases h
    | error e1 =>
      have := (sendFallback_error ({ s with PrimaryHost := "" }).Hosts
        { s with PrimaryHost := "" } st1 p e (by simpa using h)).1
      simpa using this

/-- Witness for C6's amended statement at a concrete all-fail send with
a cached primary. -/
theorem zbx_C6_witness :
    "all 1 hosts failed" = "all " ++ toString missSender.Hosts.length ++ " hosts failed" :=
  zbx_C6_amended_reports_list_length missSender emptyTrace emptyPacket
    "all 1 hosts failed" rfl

theorem sendWithRedirects_flag (s : Sender) (p : Packet) (st : SendState)
    (h : String) (b : Bool) :
    sendWithRedirects { s with UpdateHost := b } p st h = sendWithRedirects s p st h :=
  rfl

/-- The fallback loop never reads `UpdateHost`: flipping the flag only
flips it in the resulting sender. -/
theorem sendFallback_flag :
    ∀ (l : List String) (s : Sender) (st : SendState) (p : Packet) (b : Bool),
      sendFallback { s with UpdateHost := b } st p l
        = { sendFallback s st p l with
            s := { (sendFallback s st p l).s with UpdateHost := b } } := by
  intro l
  induction l with
  | nil => intro s st p b; rfl
  | cons host rest ih =>
    intro s st p b
    rw [sendFallback, sendFallback, sendWithRedirects_flag]
    rcases hw : sendWithRedirects s p st host with ⟨r1, st1⟩
    cases r1 with
    | ok v => rfl
    | error e =>
      dsimp only
      rw [ih s st1 p b]

/-- `Send` never reads `UpdateHost` either. -/
theorem Send_flag (s : Sender) (st : SendState) (p : Packet) (b : Bool) :
    Send { s with UpdateHost := b } st p
      = { Send s st p with s := { (Send s st p).s with UpdateHost := b } } := by
  by_cases hprim : s.PrimaryHost = ""
  · simp only [Send]
    rw [if_pos hprim, if_pos hprim]
    exact sendFallback_flag s.Hosts s st p b
  · simp only [Send]
    rw [if_neg hprim, if_neg hprim, sendWithRedirects_flag]
    rcases hw : sendWithRedirects s p st s.PrimaryHost with ⟨r1, st1⟩
    cases r1 with
    | ok v => rfl
    | error e =>
      dsimp only
      rw [sendFallback_flag s.Hosts { s with PrimaryHost := "" } st1 p b]

/-- C7: the `UpdateHost` flag is never read by the send path, so the
sender's recorded addresses after a send — including a send that
succeeds only after following a redirect (second part, on the concrete
redirect-then-success trace) — are identical whether the flag is set or
cleared; the flag controls nothing. -/
theorem zbx_C7_updateHost_flag_unused :
    (∀ (s : Sender) (st : SendState) (p : Packet) (b : Bool),
      (Send { s with UpdateHost := b } st p).res = (Send s st p).res
        ∧ (Send { s with UpdateHost := b } st p).s.Hosts = (Send s st p).s.Hosts
        ∧ (Send { s with UpdateHost := b } st p).s.PrimaryHost
            = (Send s st p).s.PrimaryHost
        ∧ (Send { s with UpdateHost := b } st p).st = (Send s st p).st)
    ∧ (Send { oneHostSender with UpdateHost := true } redirOkTrace emptyPacket).s.Hosts
        = (Send { oneHostSender with UpdateHost := false } redirOkTrace emptyPacket).s.Hosts
    ∧ (Send { oneHostSender with UpdateHost := true } redirOkTrace emptyPacket).s.PrimaryHost
        = (Send { oneHostSender with UpdateHost := false } redirOkTrace
            emptyPacket).s.PrimaryHost
    ∧ isOkE (Send { oneHostSender with UpdateHost := true } redirOkTrace emptyPacket).res
        = true := by
  refine ⟨fun s st p b => ?_, rfl, rfl, rfl⟩
  rw [Send_flag]
  exact ⟨rfl, rfl, rfl, rfl⟩

/-- Every address the redirect loop attempts is the initial current
address or was validated by `parseHostPort`, hence contains a colon. -/
theorem redirLoop_log :
    ∀ (fuel : Nat) (st : SendState) (cur start : String),
      ∃ att, (sendWithRedirectsLoop st cur start fuel).2.log = st.log ++ att
        ∧ ∀ h ∈ att, h = cur ∨ h.data.contains ':' = true := by
  intro fuel
  induction fuel with
  | zero => intro st cur start; exact ⟨[], by simp [sendWithRedirectsLoop], by simp⟩
  | succ fuel ih =>
    intro st cur start
    cases hnet : st.net with
    | nil =>
      exact ⟨[cur], by simp [sendWithRedirectsLoop, sendOnce, hnet], by simp⟩
    | cons o rest =>
      cases o with
      | error e =>
        exact ⟨[cur], by simp [sendWithRedirectsLoop, sendOnce, hnet], by simp⟩
      | ok res =>
        by_cases hs : res.response = "success"
        · exact ⟨[cur], by simp [sendWithRedirectsLoop, sendOnce, hnet, hs], by simp⟩
        · cases hred : res.redirect with
          | none =>
            exact ⟨[cur],
              by simp [sendWithRedirectsLoop, sendOnce, hnet, hs, hred], by simp⟩
          | some rd =>
            by_cases haddr : rd.address = ""
            · exact ⟨[cur],
                by simp [sendWithRedirectsLoop, sendOnce, hnet, hs, hred, haddr], by simp⟩
            · cases hph : parseHostPort rd.address with
              | error e =>
                exact ⟨[cur],
                  by simp [sendWithRedirectsLoop, sendOnce, hnet, hs, hred, haddr, hph],
                  by simp⟩
              | ok newHost =>
                obtain ⟨att, hlog, hmem⟩ :=
                  ih { net := rest, log := st.log ++ [cur] } newHost start
                refine ⟨cur :: att, ?_, ?_⟩
                · simp only [sendWithRedirectsLoop, sendOnce, hnet, hred, hph]
                  rw [if_neg hs, if_neg haddr]
                  simpa [List.append_assoc] using hlog
                · intro h hh
                  rcases List.mem_cons.mp hh with rfl | hh
                  · left; rfl
                  · rcases hmem h hh with rfl | hc
                    · right; exact parseHostPort_ok_contains hph
                    · right; exact hc

/-- Every address a full drive attempts is its starting address or a
colon-containing redirect target. -/
theorem sendWithRedirects_log (s : Sender) (p : Packet) (st : SendState) (start : String) :
    ∃ att, (sendWithRedirects s p st start).2.log = st.log ++ att
      ∧ ∀ h ∈ att, h = start ∨ h.data.contains ':' = true :=
  redirLoop_log (s.MaxRedirects + 1).toNat st start start

/-- Every address the fallback loop attempts is in its host list or is
a colon-containing redirect target. -/
theorem sendFallback_log :
    ∀ (l : List String) (s : Sender) (st : SendState) (p : Packet),
      ∃ att, (sendFallback s st p l).st.log = st.log ++ att
        ∧ ∀ h ∈ att, h ∈ l ∨ h.data.contains ':' = true := by
  intro l
  induction l with
  | nil => intro s st p; exact ⟨[], by simp [sendFallback], by simp⟩
  | cons host rest ih =>
    intro s st p
    obtain ⟨att1, h1log, h1mem⟩ := sendWithRedirects_log s p st host
    rcases hw : sendWithRedirects s p st host with ⟨r1, st1⟩
    rw [hw] at h1log
    dsimp only at h1log
    cases r1 with
    | ok v =>
      refine ⟨att1, ?_, ?_⟩
      · rw [sendFallback, hw]
        exact h1log
      · intro h hh
        rcases h1mem h hh with rfl | hc
        · left; exact List.mem_cons_self _ _
        · right; exact hc
    | error e =>
      obtain ⟨att2, h2log, h2mem⟩ := ih s st1 p
      refine ⟨att1 ++ att2, ?_, ?_⟩
      · simp [sendFallback, hw, h2log, h1log, List.append_assoc]
      · intro h hh
        rcases List.mem_append.mp hh with hh | hh
        · rcases h1mem h hh with rfl | hc
          · left; exact List.mem_cons_self _ _
          · right; exact hc
        · rcases h2mem h hh with hm | hc
          · left; exact List.mem_cons_of_mem _ hm
          · right; exact hc

/-- C8 (amended): every address on which a TCP attempt is made during a
send is the cached primary, a configured host taken as given, or a
redirect target — and the only validation a redirect target receives
before the attempt is that it contains a colon; neither a non-empty
host part nor a numeric port part is enforced on any of them. -/
theorem zbx_C8_amended_attempted_addresses (s : Sender) (st : SendState) (p : Packet) :
    ∃ att, (Send s st p).st.log = st.log ++ att
      ∧ ∀ h ∈ att, h = s.PrimaryHost ∨ h ∈ s.Hosts ∨ h.data.contains ':' = true := by
  by_cases hprim : s.PrimaryHost = ""
  · rw [Send, if_pos hprim]
    obtain ⟨att, hlog, hmem⟩ := sendFallback_log s.Hosts s st p
    refine ⟨att, hlog, ?_⟩
    intro h hh
    rcases hmem h hh with hm | hc
    · right; left; exact hm
    · right; right; exact hc
  · rw [Send, if_neg hprim]
    obtain ⟨att1, h1log, h1mem⟩ := sendWithRedirects_log s p st s.PrimaryHost
    rcases hw : sendWithRedirects s p st s.PrimaryHost with ⟨r1, st1⟩
    rw [hw] at h1log
    dsimp only at h1log
    cases r1 with
    | ok v =>
      refine ⟨att1, by simpa using h1log, ?_⟩
      intro h hh
      rcases h1mem h hh with rfl | hc
      · left; rfl
      · right; right; exact hc
    | error e =>
      obtain ⟨att2, h2log, h2mem⟩ := sendFallback_log s.Hosts { s with PrimaryHost := "" } st1 p
      refine ⟨att1 ++ att2, ?_, ?_⟩
      · dsimp only
        rw [h2log, h1log, List.append_assoc]
      · intro h hh
        rcases List.mem_append.mp hh with hh | hh
        · rcases h1mem h hh with rfl | hc
          · left; rfl
          · right; right; exact hc
        · rcases h2mem h hh with hm | hc
          · right; left; exact hm
          · right; right; exact hc

/-- Counterexample for C8: both `parseHostPort` variants accept the
address `"h:abc"`, whose port part `"abc"` is not numeric, and a drive
redirected there makes a TCP attempt on it (it appears in the log). -/
theorem zbx_C8_cex_non_numeric_port_attempted :
    parseHostPort "h:abc" = .ok "h:abc"
      ∧ ZabbixSender.parseHostPort "h:abc" = .ok "h:abc"
      ∧ (sendWithRedirects oneHostSender emptyPacket badPortTrace "a:1").2.log
        = ["a:1", "h:abc"]
      ∧ goSplit "h:abc" ':' = ["h", "abc"]
      ∧ isNumericStr "abc" = false :=
  ⟨rfl, rfl, rfl, rfl, rfl⟩

theorem escChar_a : jsonEscapeChar 'a' = [97] := rfl

theorem escList_replicate_a (n : Nat) :
    escList (List.replicate n 'a') = List.replicate n 97 := by
  induction n with
  | zero => rfl
  | succ n ih => simp [List.replicate_succ, escList, escChar_a, ih]

theorem strBytes_request_length : (strBytes "\"request\":").length = 10 := rfl

theorem packetJSON_request_only (r : String) :
    packetJSON { request := r, data := [], clock := 0, ns := 0, host := "", hostMetadata := "" }
      = [123] ++ strBytes "\"request\":" ++ (34 :: (escList r.data ++ [34]))
        ++ [] ++ [] ++ [] ++ [] ++ [125] := by
  simp [packetJSON, jsonStr]

theorem lenParts (a b c d e f g h : List Nat) :
    (a ++ b ++ c ++ d ++ e ++ f ++ g ++ h).length
      = a.length + b.length + c.length + d.length + e.length + f.length
        + g.length + h.length := by
  simp [List.length_append]
  omega

theorem lenQuoted (l : List Nat) : (34 :: (l ++ [34])).length = l.length + 2 := by
  simp

theorem packetJSON_bigPacket_length :
    (packetJSON bigPacket).length = 4294967310 := by
  have h1 : escList bigStr.data = List.replicate 4294967296 97 :=
    escList_replicate_a 4294967296
  rw [show bigPacket
      = { request := bigStr, data := [], clock := 0, ns := 0, host := "",
          hostMetadata := "" } from rfl,
    packetJSON_request_only bigStr, h1, lenParts, lenQuoted, List.length_replicate,
    strBytes_request_length]
  norm_num

/-- An 8-byte buffer holding a 32-bit little-endian value is the true
64-bit little-endian encoding exactly of values below `2^32`. -/
theorem putUint32Pad8_eq_le64 {v : Nat} (hv : v < 4294967296) :
    putUint32Pad8 v = le64 v := by
  have h1 : v / 4294967296 = 0 := Nat.div_eq_of_lt hv
  have h2 : v / 1099511627776 = 0 := Nat.div_eq_of_lt (lt_trans hv (by norm_num))
  have h3 : v / 281474976710656 = 0 := Nat.div_eq_of_lt (lt_trans hv (by norm_num))
  have h4 : v / 72057594037927936 = 0 := Nat.div_eq_of_lt (lt_trans hv (by norm_num))
  rw [putUint32Pad8, le64, h1, h2, h3, h4]

/-- Counterexample for C9: for a packet whose JSON encoding is
`2^32 + 14` bytes long, the 8-byte length field written by `DataLen`
(which uses `binary.LittleEndian.PutUint32`, truncating to 32 bits) is
not the 8-byte little-endian encoding of the JSON byte length. -/
theorem zbx_C9_cex_length_truncated :
    DataLen bigPacket ≠ le64 ((packetJSON bigPacket).length) := by
  rw [DataLen, packetJSON_bigPacket_length]
  decide

/-- C9 (amended): the request buffer is exactly the 5 constant header
bytes (`"ZBXD"` + `0x01`), then 8 bytes holding the byte length of the
packet's JSON encoding reduced modulo `2^32` in little-endian order
(high 4 bytes always zero), then that JSON encoding; the length field
equals the true 8-byte little-endian byte length whenever that length
is below `2^32`. -/
theorem zbx_C9_amended_framing (p : Packet) :
    sendOnceBuffer p = getHeader ++ DataLen p ++ packetJSON p
      ∧ DataLen p = le64 ((packetJSON p).length % 4294967296)
      ∧ ((packetJSON p).length < 4294967296 →
          DataLen p = le64 (packetJSON p).length)
      ∧ getHeader = strBytes "ZBXD" ++ [1] := by
  refine ⟨rfl, ?_, ?_, rfl⟩
  · exact putUint32Pad8_eq_le64 (Nat.mod_lt _ (by norm_num))
  · intro hlt
    rw [DataLen, Nat.mod_eq_of_lt hlt]
    exact putUint32Pad8_eq_le64 hlt

/-- Witness for C9's amended statement on a small concrete packet. -/
theorem zbx_C9_witness :
    (packetJSON emptyPacket).length < 4294967296
      ∧ DataLen emptyPacket = le64 (packetJSON emptyPacket).length :=
  ⟨by decide, (zbx_C9_amended_framing emptyPacket).2.2.1 (by decide)⟩
